import Mathlib

/-!
Verification of the `unsplash-source-js` URL builder (`src/core.js`).

The source is a single JavaScript constructor `UnsplashPhoto` whose chained
setter methods mutate fields and whose terminal `fetch` method serializes the
accumulated state into a URL string.  We embed the builder state as a
structure, each setter as a pure state transformer, and `fetch` as a pure
function from states to strings.  JavaScript truthiness tests (`!!x`) on the
optional fields are modelled explicitly: a number field is truthy when it is
defined and non-zero, a string field when it is defined and non-empty.
-/

/-- JS truthiness of an optional number field (`!!x`): defined and non-zero. -/
def truthyNat : Option Nat → Bool
  | some n => n != 0
  | none => false

/-- JS truthiness of an optional string field (`!!x`): defined and non-empty. -/
def truthyStr : Option String → Bool
  | some s => s != ""
  | none => false

/-- The `this.dimensions` object: `width` / `height`, each possibly unset. -/
structure Dimensions where
  width : Option Nat
  height : Option Nat
deriving DecidableEq, Repr

/-- Builder state of `UnsplashPhoto` (fields as set up by the constructor;
`id`, `username`, `category`, `collection` and `keywords` start undefined). -/
structure UnsplashPhoto where
  version : String
  url : String
  dimensions : Dimensions
  scope : String
  randomizationInterval : String
  id : Option Nat
  username : Option String
  category : Option String
  collection : Option String
  keywords : Option String
deriving DecidableEq, Repr

namespace UnsplashPhoto

/-- The `UnsplashPhoto` constructor. -/
def init : UnsplashPhoto where
  version := "1.0.0"
  url := "https://source.unsplash.com"
  dimensions := { width := none, height := none }
  scope := "all"
  randomizationInterval := "perRequest"
  id := none
  username := none
  category := none
  collection := none
  keywords := none

/-- `find(id)`: stores the photo id. -/
def find (p : UnsplashPhoto) (id : Nat) : UnsplashPhoto :=
  { p with id := some id }

/-- `width(width)`: sets `dimensions.width`, leaving `height` alone. -/
def width (p : UnsplashPhoto) (w : Nat) : UnsplashPhoto :=
  { p with dimensions := { p.dimensions with width := some w } }

/-- `height(height)`: sets `dimensions.height`, leaving `width` alone. -/
def height (p : UnsplashPhoto) (h : Nat) : UnsplashPhoto :=
  { p with dimensions := { p.dimensions with height := some h } }

/-- `size(width, height)`: replaces the whole `dimensions` object;
`height || width` falls back to `width` when `height` is absent or `0`. -/
def size (p : UnsplashPhoto) (w : Nat) (h : Option Nat) : UnsplashPhoto :=
  { p with
    dimensions :=
      { width := some w
        height := some (match h with
          | some hv => if hv == 0 then w else hv
          | none => w) } }

/-- `randomize(interval)`: keeps `daily`/`weekly`, anything else resets the
interval to `perRequest`. -/
def randomize (p : UnsplashPhoto) (interval : String) : UnsplashPhoto :=
  if interval == "daily" || interval == "weekly" then
    { p with randomizationInterval := interval }
  else
    { p with randomizationInterval := "perRequest" }

/-- `featured()`: sets the scope to `featured`. -/
def featured (p : UnsplashPhoto) : UnsplashPhoto :=
  { p with scope := "featured" }

/-- `fromUser(username)`. -/
def fromUser (p : UnsplashPhoto) (username : String) : UnsplashPhoto :=
  { p with username := some username }

/-- `fromCategory(category)`. -/
def fromCategory (p : UnsplashPhoto) (category : String) : UnsplashPhoto :=
  { p with category := some category }

/-- `fromCollection(collectionId)`: stores into `this.collection`. -/
def fromCollection (p : UnsplashPhoto) (collectionId : String) : UnsplashPhoto :=
  { p with collection := some collectionId }

end UnsplashPhoto

/-! ### `encodeURI`

JavaScript `encodeURI` leaves alphanumerics and the characters
`- _ . ! ~ * ' ( ) ; / ? : @ & = + $ , #` unchanged and percent-encodes the
UTF-8 bytes of every other character, with uppercase hex digits. -/

/-- Characters `encodeURI` leaves unchanged (the apostrophe, code 39, is
among them). -/
def encodeURIUnescaped (c : Char) : Bool :=
  c.isAlphanum || ("-_.!~*();/?:@&=+$,#".toList ++ [Char.ofNat 39]).contains c

/-- Uppercase hex digit for `n < 16`. -/
def hexDigit (n : Nat) : Char :=
  if n < 10 then Char.ofNat (48 + n) else Char.ofNat (55 + n)

/-- `%XX` percent-encoding of one byte. -/
def percentByte (b : Nat) : String :=
  "%" ++ String.singleton (hexDigit (b / 16)) ++ String.singleton (hexDigit (b % 16))

/-- UTF-8 bytes of a code point. -/
def utf8Encode (n : Nat) : List Nat :=
  if n < 128 then [n]
  else if n < 2048 then [192 + n / 64, 128 + n % 64]
  else if n < 65536 then [224 + n / 4096, 128 + (n / 64) % 64, 128 + n % 64]
  else [240 + n / 262144, 128 + (n / 4096) % 64, 128 + (n / 64) % 64, 128 + n % 64]

/-- `encodeURI` on a single character. -/
def encodeURIChar (c : Char) : String :=
  if encodeURIUnescaped c then String.singleton c
  else String.join ((utf8Encode c.toNat).map percentByte)

/-- JavaScript `encodeURI`. -/
def encodeURI (s : String) : String :=
  String.join (s.toList.map encodeURIChar)

/-! ### Dynamically typed input to `of`

`of(keywords)` accepts anything at runtime; the source duck-types it
(`Array.isArray`, `.split`, `.trim`).  We embed the relevant slice of
JavaScript values so that the raising behaviour can be stated. -/

/-- A JavaScript value, as far as `of` can observe it. -/
inductive JSValue where
  | str (s : String)
  | num (n : Int)
  | arr (elems : List JSValue)
  | undef
  | nullv
  | boolv (b : Bool)

namespace JSValue

/-- Is the value a string? -/
def isString : JSValue → Bool
  | .str _ => true
  | _ => false

/-- Is the value an array (`Array.isArray`)? -/
def isArr : JSValue → Bool
  | .arr _ => true
  | _ => false

/-- Elements of an array value (empty for non-arrays). -/
def elems : JSValue → List JSValue
  | .arr es => es
  | _ => []

end JSValue

/-- JavaScript `String.prototype.trim`: strip leading and trailing
whitespace. -/
def trimString (s : String) : String :=
  List.asString (((s.toList.dropWhile Char.isWhitespace).reverse.dropWhile
    Char.isWhitespace).reverse)

/-- `keyword.trim()`: succeeds only on strings; on anything else JavaScript
raises `TypeError: keyword.trim is not a function`. -/
def jsTrim : JSValue → Except String String
  | .str s => .ok (trimString s)
  | _ => .error "keyword.trim is not a function"

/-- The `Array.isArray(keywords) ? keywords : keywords.split(",")` step:
arrays pass through, strings are split on `","`, anything else raises
`TypeError: keywords.split is not a function`. -/
def jsSplitKeywords : JSValue → Except String (List JSValue)
  | .arr es => .ok es
  | .str s => .ok ((s.splitOn ",").map JSValue.str)
  | _ => .error "keywords.split is not a function"

/-- The `keywords.forEach(... sanitizedKeywords.push(keyword.trim()) ...)`
loop: trims each element in order, raising at the first non-string. -/
def trimAll : List JSValue → Except String (List String)
  | [] => .ok []
  | k :: ks =>
    match jsTrim k with
    | .error e => .error e
    | .ok s =>
      match trimAll ks with
      | .error e => .error e
      | .ok rest => .ok (s :: rest)

/-- Did the `Except`-modelled call return normally? -/
def isOkE {α : Type} : Except String α → Bool
  | .ok _ => true
  | .error _ => false

namespace UnsplashPhoto

/-- `of(keywords)`: normalize to a list, trim each keyword, join with commas,
`encodeURI`, store.  Raising JavaScript steps are modelled with `Except`. -/
def of (p : UnsplashPhoto) (keywords : JSValue) : Except String UnsplashPhoto :=
  match jsSplitKeywords keywords with
  | .error e => .error e
  | .ok ks =>
    match trimAll ks with
    | .error e => .error e
    | .ok sanitizedKeywords =>
      .ok { p with keywords := some (encodeURI (String.intercalate "," sanitizedKeywords)) }

/-- `_hasDimensions()`: `!!this.dimensions.width && !!this.dimensions.height`. -/
def hasDimensions (p : UnsplashPhoto) : Bool :=
  truthyNat p.dimensions.width && truthyNat p.dimensions.height

/-- `_appendDimensions()`: appends `/<w>x<h>` to the given url when both
dimensions are truthy. -/
def appendDimensions (p : UnsplashPhoto) (url : String) : String :=
  if p.hasDimensions then
    url ++ "/" ++ Nat.repr (p.dimensions.width.getD 0) ++ "x" ++ Nat.repr (p.dimensions.height.getD 0)
  else
    url

/-- `_appendScope()`: appends `/featured` when the scope is `featured`. -/
def appendScope (p : UnsplashPhoto) (url : String) : String :=
  if p.scope == "featured" then url ++ "/featured" else url

/-- `_appendKeywords()`: appends `?<keywords>` when the stored keyword string
is truthy. -/
def appendKeywords (p : UnsplashPhoto) (url : String) : String :=
  if truthyStr p.keywords then url ++ "?" ++ p.keywords.getD "" else url

/-- `_appendRandomization(includeRandomPath)`: `/random` only when asked for
and the interval is `perRequest`; otherwise `/daily` or `/weekly` when set. -/
def appendRandomization (p : UnsplashPhoto) (includeRandomPath : Bool) (url : String) : String :=
  if includeRandomPath && p.randomizationInterval == "perRequest" then
    url ++ "/random"
  else if p.randomizationInterval == "daily" then
    url ++ "/daily"
  else if p.randomizationInterval == "weekly" then
    url ++ "/weekly"
  else
    url

/-- `fetch()`: dispatch on the truthy selector fields in source order and
serialize; the JavaScript appends to `this.url` in place, which composes to
the nesting below. -/
def fetch (p : UnsplashPhoto) : String :=
  if truthyNat p.id then
    p.appendDimensions (p.url ++ "/" ++ Nat.repr (p.id.getD 0))
  else if truthyStr p.username then
    p.appendKeywords (p.appendRandomization false
      (p.appendDimensions (p.appendScope (p.url ++ "/user/" ++ p.username.getD ""))))
  else if truthyStr p.category then
    p.appendKeywords (p.appendRandomization false
      (p.appendDimensions (p.appendScope (p.url ++ "/category/" ++ p.category.getD ""))))
  else if truthyStr p.collection then
    p.appendKeywords (p.appendRandomization false
      (p.appendDimensions (p.appendScope (p.url ++ "/collection/" ++ p.collection.getD ""))))
  else
    p.appendKeywords (p.appendRandomization true
      (p.appendDimensions (p.appendScope p.url)))

end UnsplashPhoto

/-! ### Branch decomposition of `fetch`

To state the precedence claims we name the five serialization branches of
`fetch` and the first-match-wins selection the source performs. -/

/-- The five serialization branches of `fetch`. -/
inductive Branch where
  | byId
  | byUser
  | byCategory
  | byCollection
  | noSelector
deriving DecidableEq, Repr

namespace UnsplashPhoto

/-- First-match-wins branch selection in the fixed source order
`id`, `username`, `category`, `collection`. -/
def selectedBranch (p : UnsplashPhoto) : Branch :=
  if truthyNat p.id then .byId
  else if truthyStr p.username then .byUser
  else if truthyStr p.category then .byCategory
  else if truthyStr p.collection then .byCollection
  else .noSelector

/-- The serialization each single branch of `fetch` performs. -/
def fetchVia (p : UnsplashPhoto) : Branch → String
  | .byId =>
    p.appendDimensions (p.url ++ "/" ++ Nat.repr (p.id.getD 0))
  | .byUser =>
    p.appendKeywords (p.appendRandomization false
      (p.appendDimensions (p.appendScope (p.url ++ "/user/" ++ p.username.getD ""))))
  | .byCategory =>
    p.appendKeywords (p.appendRandomization false
      (p.appendDimensions (p.appendScope (p.url ++ "/category/" ++ p.category.getD ""))))
  | .byCollection =>
    p.appendKeywords (p.appendRandomization false
      (p.appendDimensions (p.appendScope (p.url ++ "/collection/" ++ p.collection.getD ""))))
  | .noSelector =>
    p.appendKeywords (p.appendRandomization true
      (p.appendDimensions (p.appendScope p.url)))

/-- Number of truthy selector fields. -/
def countSelectors (p : UnsplashPhoto) : Nat :=
  (if truthyNat p.id then 1 else 0) + (if truthyStr p.username then 1 else 0) +
    (if truthyStr p.category then 1 else 0) + (if truthyStr p.collection then 1 else 0)

end UnsplashPhoto

open UnsplashPhoto

/-- `fetch` always serializes through exactly the first-match-wins branch. -/
theorem fetch_eq_fetchVia_selectedBranch (p : UnsplashPhoto) :
    fetch p = fetchVia p (selectedBranch p) := by
  cases hid : truthyNat p.id <;> cases hu : truthyStr p.username <;>
    cases hc : truthyStr p.category <;> cases hco : truthyStr p.collection <;>
      simp [fetch, fetchVia, selectedBranch, hid, hu, hc, hco]

/-- C1: when more than one selector is set, `fetch` serializes through exactly
the one branch chosen by first-match-wins precedence in the order `id`,
`username`, `category`, `collection`; in particular with both `id` and
`username` truthy the `id` branch alone is used. -/
theorem selector_precedence (p : UnsplashPhoto) (h : 2 ≤ countSelectors p) :
    fetch p = fetchVia p (selectedBranch p) ∧
    (truthyNat p.id = true → selectedBranch p = Branch.byId) ∧
    (truthyNat p.id = false → truthyStr p.username = true →
      selectedBranch p = Branch.byUser) ∧
    (truthyNat p.id = false → truthyStr p.username = false →
      truthyStr p.category = true → selectedBranch p = Branch.byCategory) ∧
    (truthyNat p.id = false → truthyStr p.username = false →
      truthyStr p.category = false → truthyStr p.collection = true →
      selectedBranch p = Branch.byCollection) ∧
    (truthyNat p.id = true → truthyStr p.username = true →
      fetch p = fetchVia p Branch.byId) := by
  refine ⟨fetch_eq_fetchVia_selectedBranch p, ?_, ?_, ?_, ?_, ?_⟩ <;>
    intros <;> simp_all [selectedBranch, fetch, fetchVia]

/-- Witness for C1: a state with both `id` and `username` set serializes
through the `id` branch. -/
theorem selector_precedence_witness :
    2 ≤ countSelectors (fromUser (find init 7) "ann") ∧
    fetch (fromUser (find init 7) "ann") =
      fetchVia (fromUser (find init 7) "ann") Branch.byId :=
  ⟨by decide,
    (selector_precedence (fromUser (find init 7) "ann") (by decide)).2.2.2.2.2
      (by decide) (by decide)⟩

/-! ### Decimal rendering facts

`fetch` renders the id and the dimensions with `Nat.repr`; its characters are
decimal digits, which is what makes the id branch's output free of the
`/featured`, `/daily`, `/weekly`, `/random` and `?…` segments. -/

theorem digitChar_isDigit : ∀ m, m < 10 → (Nat.digitChar m).isDigit = true := by
  decide

theorem toDigitsCore_isDigit (fuel : Nat) :
    ∀ (n : Nat) (ds : List Char), (∀ c ∈ ds, c.isDigit = true) →
      ∀ c ∈ Nat.toDigitsCore 10 fuel n ds, c.isDigit = true := by
  induction fuel with
  | zero =>
    intro n ds hds c hc
    simpa [Nat.toDigitsCore] using hds c hc
  | succ fuel ih =>
    intro n ds hds c hc
    simp only [Nat.toDigitsCore] at hc
    by_cases hz : n / 10 = 0
    · simp only [hz, if_pos rfl] at hc
      rcases List.mem_cons.mp hc with hd | hmem
      · subst hd; exact digitChar_isDigit _ (Nat.mod_lt _ (by decide))
      · exact hds c hmem
    · simp only [hz, if_neg hz] at hc
      refine ih (n / 10) (Nat.digitChar (n % 10) :: ds) ?_ c hc
      intro d hd
      rcases List.mem_cons.mp hd with hd | hmem
      · subst hd; exact digitChar_isDigit _ (Nat.mod_lt _ (by decide))
      · exact hds d hmem

theorem repr_isDigit (n : Nat) : ∀ c ∈ (Nat.repr n).toList, c.isDigit = true := by
  intro c hc
  exact toDigitsCore_isDigit (n + 1) n [] (by simp) c hc

theorem toList_append (s t : String) : (s ++ t).toList = s.toList ++ t.toList :=
  String.data_append s t

/-- A list containing a character that is neither `/`, `x` nor a digit is not
an infix of a list all of whose characters are. -/
theorem no_infix_of_forbidden (l s : List Char) (c : Char) (hc : c ∈ l)
    (hs : ∀ d ∈ s, d = '/' ∨ d = 'x' ∨ d.isDigit = true)
    (hbad : ¬(c = '/' ∨ c = 'x' ∨ c.isDigit = true)) : ¬(l <:+: s) :=
  fun h => hbad (hs c (h.subset hc))

namespace UnsplashPhoto

/-- What the id branch appends after the base url: `/<id>` and, when both
dimensions are truthy, `/<w>x<h>`. -/
def idSuffix (p : UnsplashPhoto) : String :=
  "/" ++ Nat.repr (p.id.getD 0) ++
    (if p.hasDimensions then
      "/" ++ Nat.repr (p.dimensions.width.getD 0) ++ "x" ++ Nat.repr (p.dimensions.height.getD 0)
    else "")

end UnsplashPhoto

theorem idSuffix_chars (p : UnsplashPhoto) :
    ∀ c ∈ (idSuffix p).toList, c = '/' ∨ c = 'x' ∨ c.isDigit = true := by
  have eslash : "/".toList = ['/'] := rfl
  have ex : "x".toList = ['x'] := rfl
  intro c hc
  simp only [idSuffix, toList_append, List.mem_append] at hc
  rcases hc with (h1 | h2) | h3
  · rw [eslash] at h1; left; simpa using h1
  · right; right; exact repr_isDigit _ c h2
  · by_cases hd : p.hasDimensions
    · simp only [hd, if_true, toList_append, List.mem_append] at h3
      rcases h3 with ((h | h) | h) | h
      · rw [eslash] at h; left; simpa using h
      · right; right; exact repr_isDigit _ c h
      · rw [ex] at h; right; left; simpa using h
      · right; right; exact repr_isDigit _ c h
    · simp [hd] at h3

/-- C2: with `id` truthy, `fetch` appends only `/<id>` and (when present) the
dimension segment; that suffix never contains `/featured`, `/daily`,
`/weekly`, `/random`, or a `?` that would start a keyword query string. -/
theorem id_branch_pure (p : UnsplashPhoto) (h : truthyNat p.id = true) :
    fetch p = p.url ++ idSuffix p ∧
    ¬("/featured".toList <:+: (idSuffix p).toList) ∧
    ¬("/daily".toList <:+: (idSuffix p).toList) ∧
    ¬("/weekly".toList <:+: (idSuffix p).toList) ∧
    ¬("/random".toList <:+: (idSuffix p).toList) ∧
    ¬('?' ∈ (idSuffix p).toList) := by
  refine ⟨?_, ?_, ?_, ?_, ?_, ?_⟩
  · by_cases hd : p.hasDimensions <;>
      simp [fetch, h, appendDimensions, idSuffix, hd, String.append_assoc]
  · exact no_infix_of_forbidden _ _ 'f' (by decide) (idSuffix_chars p) (by decide)
  · exact no_infix_of_forbidden _ _ 'd' (by decide) (idSuffix_chars p) (by decide)
  · exact no_infix_of_forbidden _ _ 'w' (by decide) (idSuffix_chars p) (by decide)
  · exact no_infix_of_forbidden _ _ 'r' (by decide) (idSuffix_chars p) (by decide)
  · intro hq
    have := idSuffix_chars p _ hq
    revert this; decide

/-- Witness for C2 at the state `find init 7`. -/
theorem id_branch_pure_witness :
    truthyNat (find init 7).id = true ∧
    fetch (find init 7) = (find init 7).url ++ idSuffix (find init 7) ∧
    ¬("/random".toList <:+: (idSuffix (find init 7)).toList) :=
  ⟨by decide,
    (id_branch_pure (find init 7) (by decide)).1,
    (id_branch_pure (find init 7) (by decide)).2.2.2.2.1⟩

/-! ### Branch-selection inversion lemmas -/

theorem selectedBranch_noSelector_inv (p : UnsplashPhoto)
    (h : selectedBranch p = Branch.noSelector) :
    truthyNat p.id = false ∧ truthyStr p.username = false ∧
      truthyStr p.category = false ∧ truthyStr p.collection = false := by
  cases hid : truthyNat p.id <;> cases hu : truthyStr p.username <;>
    cases hc : truthyStr p.category <;> cases hco : truthyStr p.collection <;>
      simp_all [selectedBranch]

theorem selectedBranch_byUser_inv (p : UnsplashPhoto)
    (h : selectedBranch p = Branch.byUser) :
    truthyNat p.id = false ∧ truthyStr p.username = true := by
  cases hid : truthyNat p.id <;> cases hu : truthyStr p.username <;>
    cases hc : truthyStr p.category <;> cases hco : truthyStr p.collection <;>
      simp_all [selectedBranch]

theorem selectedBranch_byCategory_inv (p : UnsplashPhoto)
    (h : selectedBranch p = Branch.byCategory) :
    truthyNat p.id = false ∧ truthyStr p.username = false ∧
      truthyStr p.category = true := by
  cases hid : truthyNat p.id <;> cases hu : truthyStr p.username <;>
    cases hc : truthyStr p.category <;> cases hco : truthyStr p.collection <;>
      simp_all [selectedBranch]

theorem selectedBranch_byCollection_inv (p : UnsplashPhoto)
    (h : selectedBranch p = Branch.byCollection) :
    truthyNat p.id = false ∧ truthyStr p.username = false ∧
      truthyStr p.category = false ∧ truthyStr p.collection = true := by
  cases hid : truthyNat p.id <;> cases hu : truthyStr p.username <;>
    cases hc : truthyStr p.category <;> cases hco : truthyStr p.collection <;>
      simp_all [selectedBranch]

/-- C3: the `/random` path segment is branch-dependent.  On the no-selector
branch with interval `perRequest` the URL ends in `/random` before any
keyword query string; on the `username` / `category` / `collection` branches
the randomization step appends nothing when the interval is `perRequest` —
and in general appends only `/daily` or `/weekly` there. -/
theorem random_path_branch_dependent (p : UnsplashPhoto) :
    (selectedBranch p = Branch.noSelector → p.randomizationInterval = "perRequest" →
      ∃ pre, fetch p = pre ++ "/random" ++
        (if truthyStr p.keywords then "?" ++ p.keywords.getD "" else "")) ∧
    (p.randomizationInterval = "perRequest" →
      ∀ url, p.appendRandomization false url = url) ∧
    (∀ url, p.appendRandomization false url = url ∨
      p.appendRandomization false url = url ++ "/daily" ∨
      p.appendRandomization false url = url ++ "/weekly") ∧
    (selectedBranch p = Branch.byUser → p.randomizationInterval = "perRequest" →
      fetch p = p.appendKeywords
        (p.appendDimensions (p.appendScope (p.url ++ "/user/" ++ p.username.getD "")))) ∧
    (selectedBranch p = Branch.byCategory → p.randomizationInterval = "perRequest" →
      fetch p = p.appendKeywords
        (p.appendDimensions (p.appendScope (p.url ++ "/category/" ++ p.category.getD "")))) ∧
    (selectedBranch p = Branch.byCollection → p.randomizationInterval = "perRequest" →
      fetch p = p.appendKeywords
        (p.appendDimensions (p.appendScope (p.url ++ "/collection/" ++ p.collection.getD "")))) := by
  refine ⟨?_, ?_, ?_, ?_, ?_, ?_⟩
  · intro hb hint
    obtain ⟨hid, hu, hc, hco⟩ := selectedBranch_noSelector_inv p hb
    refine ⟨p.appendDimensions (p.appendScope p.url), ?_⟩
    have hfetch : fetch p =
        p.appendKeywords (p.appendDimensions (p.appendScope p.url) ++ "/random") := by
      simp [fetch, hid, hu, hc, hco, appendRandomization, hint]
    rw [hfetch]
    unfold appendKeywords
    by_cases hk : truthyStr p.keywords
    · simp only [hk, if_true, String.append_assoc]
    · simp only [hk, Bool.false_eq_true, if_false, String.append_empty]
  · intro hint url
    simp [appendRandomization, hint]
  · intro url
    by_cases h2 : p.randomizationInterval = "daily"
    · right; left; simp [appendRandomization, h2]
    · by_cases h3 : p.randomizationInterval = "weekly"
      · right; right; simp [appendRandomization, h2, h3]
      · left; simp [appendRandomization, h2, h3]
  · intro hb hint
    obtain ⟨hid, hu⟩ := selectedBranch_byUser_inv p hb
    simp [fetch, hid, hu, appendRandomization, hint]
  · intro hb hint
    obtain ⟨hid, hu, hc⟩ := selectedBranch_byCategory_inv p hb
    simp [fetch, hid, hu, hc, appendRandomization, hint]
  · intro hb hint
    obtain ⟨hid, hu, hc, hco⟩ := selectedBranch_byCollection_inv p hb
    simp [fetch, hid, hu, hc, hco, appendRandomization, hint]

/-- Witness for C3: the fresh query serializes to a URL ending in `/random`,
while the same query routed through the `username` branch has no
randomization segment at all. -/
theorem random_path_branch_dependent_witness :
    (∃ pre, fetch init = pre ++ "/random" ++
      (if truthyStr init.keywords then "?" ++ init.keywords.getD "" else "")) ∧
    fetch (fromUser init "ann") = (fromUser init "ann").appendKeywords
      ((fromUser init "ann").appendDimensions
        ((fromUser init "ann").appendScope
          ((fromUser init "ann").url ++ "/user/" ++ (fromUser init "ann").username.getD ""))) :=
  ⟨(random_path_branch_dependent init).1 (by decide) (by decide),
    (random_path_branch_dependent (fromUser init "ann")).2.2.2.1 (by decide) (by decide)⟩

/-! ### Keyword sanitization -/

theorem trimAll_map_str (ks : List String) :
    trimAll (ks.map JSValue.str) = Except.ok (ks.map trimString) := by
  induction ks with
  | nil => rfl
  | cons k ks ih => simp [trimAll, jsTrim, ih]

/-- C4: `of` trims each keyword, URI-escapes and joins with commas; on the
concrete input `["  cat ", "dog"]` it stores `cat,dog`, and a no-selector
`fetch` then appends `?cat,dog`. -/
theorem keywords_trim_join :
    (∀ (p : UnsplashPhoto) (ks : List String),
      of p (JSValue.arr (ks.map JSValue.str)) =
        Except.ok { p with keywords := some (encodeURI (String.intercalate "," (ks.map trimString))) }) ∧
    of init (JSValue.arr [JSValue.str "  cat ", JSValue.str "dog"]) =
      Except.ok { init with keywords := some "cat,dog" } ∧
    fetch { init with keywords := some "cat,dog" } =
      "https://source.unsplash.com/random?cat,dog" := by
  refine ⟨?_, ?_, ?_⟩
  · intro p ks
    simp [of, jsSplitKeywords, trimAll_map_str]
  · rfl
  · rfl

/-- C5: any interval other than exactly `daily` or `weekly` resets the
randomization to `perRequest`, so `randomize` with an unrecognized string
followed by `fetch` on a fresh query equals never calling `randomize`. -/
theorem randomize_unrecognized_resets (p : UnsplashPhoto) (interval : String)
    (h1 : interval ≠ "daily") (h2 : interval ≠ "weekly") :
    randomize p interval = { p with randomizationInterval := "perRequest" } ∧
    fetch (randomize init interval) = fetch init := by
  constructor
  · simp [randomize, h1, h2]
  · have h : randomize init interval = { init with randomizationInterval := "perRequest" } := by
      simp [randomize, h1, h2]
    rw [h]
    rfl

/-- Witness for C5 at the unrecognized interval `monthly`. -/
theorem randomize_unrecognized_resets_witness :
    ("monthly" : String) ≠ "daily" ∧
    randomize init "monthly" = { init with randomizationInterval := "perRequest" } ∧
    fetch (randomize init "monthly") = fetch init :=
  ⟨by decide,
    (randomize_unrecognized_resets init "monthly" (by decide) (by decide)).1,
    (randomize_unrecognized_resets init "monthly" (by decide) (by decide)).2⟩

/-- C6: the dimension segment is appended exactly when both `width` and
`height` are truthy; a partial dimension state (from the independent `width`
/ `height` setters) or a zero dimension leaves `fetch` as if dimensions were
absent. -/
theorem dimensions_both_required (p : UnsplashPhoto) (url : String) (w : Nat) :
    (truthyNat p.dimensions.width = true → truthyNat p.dimensions.height = true →
      p.appendDimensions url = url ++ "/" ++ Nat.repr (p.dimensions.width.getD 0) ++ "x"
        ++ Nat.repr (p.dimensions.height.getD 0)) ∧
    (truthyNat p.dimensions.width = false ∨ truthyNat p.dimensions.height = false →
      p.appendDimensions url = url) ∧
    (truthyNat p.dimensions.height = false → fetch (p.width w) = fetch p) ∧
    (truthyNat p.dimensions.width = false → fetch (p.height w) = fetch p) := by
  refine ⟨?_, ?_, ?_, ?_⟩
  · intro hw hh
    simp [appendDimensions, hasDimensions, hw, hh]
  · intro h
    rcases h with h | h <;> simp [appendDimensions, hasDimensions, h]
  · intro h
    simp [fetch, UnsplashPhoto.width, appendDimensions, appendScope, appendKeywords,
      appendRandomization, hasDimensions, h]
  · intro h
    simp [fetch, UnsplashPhoto.height, appendDimensions, appendScope, appendKeywords,
      appendRandomization, hasDimensions, h]

/-- Witness for C6: on a fresh query with only a width set, the dimension
segment is omitted and `fetch` behaves as if no dimensions were given. -/
theorem dimensions_both_required_witness :
    (truthyNat init.dimensions.width = false ∨ truthyNat init.dimensions.height = false) ∧
    init.appendDimensions "u" = "u" ∧
    fetch (init.width 5) = fetch init :=
  ⟨Or.inl (by decide),
    (dimensions_both_required init "u" 5).2.1 (Or.inl (by decide)),
    (dimensions_both_required init "u" 5).2.2.1 (by decide)⟩

/-- C7: fresh query, `featured()`, `size(200, 200)`, `fetch()` gives exactly
the host followed by `/featured/200x200/random`. -/
theorem featured_size_end_to_end :
    fetch (size (featured init) 200 (some 200)) =
      "https://source.unsplash.com/featured/200x200/random" := rfl

/-- C9: `size(w)` with the height omitted sets both dimensions to `w`, and a
no-selector `fetch` then contains the square `/<w>x<w>` segment. -/
theorem size_square_completion (p : UnsplashPhoto) (w : Nat) (h : 0 < w) :
    (size p w none).dimensions.width = some w ∧
    (size p w none).dimensions.height = some w ∧
    fetch (size init w none) =
      "https://source.unsplash.com" ++ "/" ++ Nat.repr w ++ "x" ++ Nat.repr w ++ "/random" := by
  refine ⟨rfl, rfl, ?_⟩
  have hw : truthyNat (some w) = true := by
    simp only [truthyNat, bne_iff_ne, ne_eq, decide_eq_true_eq]
    omega
  simp [fetch, size, init, appendScope, appendDimensions, appendRandomization,
    appendKeywords, hasDimensions, truthyNat, truthyStr, hw, String.append_assoc]
  rw [if_neg (by omega)]
  simp [String.append_assoc]

/-- Witness for C9 at `w = 7`. -/
theorem size_square_completion_witness :
    (size init 7 none).dimensions.width = some 7 ∧
    (size init 7 none).dimensions.height = some 7 ∧
    fetch (size init 7 none) =
      "https://source.unsplash.com" ++ "/" ++ Nat.repr 7 ++ "x" ++ Nat.repr 7 ++ "/random" :=
  size_square_completion init 7 (by decide)

/-- C10: a falsy selector value is treated as unset by the branch dispatch of
`fetch`: `find(0)` behaves like an absent id, and an empty-string username,
category or collection likewise falls through; on an otherwise fresh query
`find(0)` ends up in the no-selector branch, which appends `/random`. -/
theorem falsy_selector_falls_through (p : UnsplashPhoto) :
    fetch (find p 0) = fetch { p with id := none } ∧
    fetch (fromUser p "") = fetch { p with username := none } ∧
    fetch (fromCategory p "") = fetch { p with category := none } ∧
    fetch (fromCollection p "") = fetch { p with collection := none } ∧
    fetch (find init 0) = "https://source.unsplash.com/random" := by
  refine ⟨?_, ?_, ?_, ?_, rfl⟩ <;>
    simp [fetch, find, fromUser, fromCategory, fromCollection, truthyNat, truthyStr,
      appendScope, appendDimensions, appendRandomization, appendKeywords, hasDimensions]

/-! ### Raising behaviour of `of` -/

theorem trimAll_ok_iff (l : List JSValue) :
    isOkE (trimAll l) = true ↔ l.all JSValue.isString = true := by
  induction l with
  | nil => simp [trimAll, isOkE]
  | cons x xs ih =>
    cases x with
    | str s =>
      have hstep : trimAll (JSValue.str s :: xs) =
          match trimAll xs with
          | .error e => .error e
          | .ok rest => .ok (trimString s :: rest) := rfl
      rw [List.all_cons]
      cases htl : trimAll xs with
      | error e =>
        rw [htl] at ih
        rw [hstep, htl]
        simpa [isOkE, JSValue.isString] using ih
      | ok r =>
        rw [htl] at ih
        rw [hstep, htl]
        simpa [isOkE, JSValue.isString] using ih
    | num n => simp [trimAll, jsTrim, isOkE, JSValue.isString]
    | arr es => simp [trimAll, jsTrim, isOkE, JSValue.isString]
    | undef => simp [trimAll, jsTrim, isOkE, JSValue.isString]
    | nullv => simp [trimAll, jsTrim, isOkE, JSValue.isString]
    | boolv b => simp [trimAll, jsTrim, isOkE, JSValue.isString]

/-- C8 (amended): `of` raises exactly on a value that is neither a string nor
an array, or on an array with a non-string element; strings and arrays of
strings always succeed. -/
theorem of_raises_iff (p : UnsplashPhoto) (v : JSValue) :
    isOkE (of p v) = false ↔
      (v.isString = false ∧ v.isArr = false) ∨
      (v.isArr = true ∧ v.elems.all JSValue.isString = false) := by
  cases v with
  | str s =>
    simp [of, jsSplitKeywords, trimAll_map_str, isOkE, JSValue.isString, JSValue.isArr]
  | arr es =>
    cases htr : trimAll es with
    | error e =>
      have hall : es.all JSValue.isString = false := by
        have h := trimAll_ok_iff es
        rw [htr] at h
        simpa [isOkE] using h
      simp [of, jsSplitKeywords, htr, isOkE, JSValue.isArr, JSValue.elems, hall]
    | ok r =>
      have hall : es.all JSValue.isString = true := by
        have h := trimAll_ok_iff es
        rw [htr] at h
        simpa [isOkE] using h
      simp [of, jsSplitKeywords, htr, isOkE, JSValue.isArr, JSValue.elems, hall]
  | num n => simp [of, jsSplitKeywords, isOkE, JSValue.isString, JSValue.isArr]
  | undef => simp [of, jsSplitKeywords, isOkE, JSValue.isString, JSValue.isArr]
  | nullv => simp [of, jsSplitKeywords, isOkE, JSValue.isString, JSValue.isArr]
  | boolv b => simp [of, jsSplitKeywords, isOkE, JSValue.isString, JSValue.isArr]

/-- Counterexample to C8 as stated: the list `[5]` IS a list — not "neither a
string nor a list" — yet `of` raises on it (from `keyword.trim`, not from the
string split). -/
theorem of_raises_on_nonstring_element :
    JSValue.isArr (JSValue.arr [JSValue.num 5]) = true ∧
    isOkE (of init (JSValue.arr [JSValue.num 5])) = false :=
  ⟨rfl, rfl⟩
